import Mathlib

/-!
Shallow embedding of the phone-number processing pipeline of
Mobile_Number_Parser (src/app.py), together with proofs of the
specification claims about it.

Cells of the input table are modelled by `CellVal`: a cell is either
missing (pandas NaN), an integer-valued numeric cell, or a string cell.
Strings are ASCII in this development, matching the data the program
handles; Python string operations are modelled on `List Char`.
-/

/-- A cell of the pandas DataFrame: missing (NaN), numeric, or string.
Numeric cells are integer-valued (pandas int64); for float cells,
`clean_phone_number` first truncates through `int(...)`, which this
model represents by the truncated integer. -/
inductive CellVal where
  | missing : CellVal
  | num : Int → CellVal
  | str : String → CellVal
deriving DecidableEq, Repr

/-- Python `str(...)` as applied by `.astype(str)` and `str(...)` calls:
NaN stringifies to "nan", numbers to their decimal form. -/
def pyStr : CellVal → String
  | .missing => "nan"
  | .num n => toString n
  | .str s => s

/-- Model of `pd.notna`. -/
def notnaB : CellVal → Bool
  | .missing => false
  | _ => true

/-- Python `cell == ""`: only a string cell can equal the empty string. -/
def cellIsEmptyStr : CellVal → Bool
  | .str s => s = ""
  | _ => false

/-- ASCII decimal digit, the model of the regex class `\d` on this data. -/
def isDigitChar (c : Char) : Bool := decide (48 ≤ c.toNat ∧ c.toNat ≤ 57)

/-- Core of `clean_phone_number` (src/app.py lines 29-42): keep only the
digits, then fix the length to 10.  `d.head? = some '1'` models
`startswith('1')` and `d.getLast? = some '0'` models `endswith('0')`;
`d.drop 1` is `d[1:]` and `d.dropLast` is `d[:-1]`. -/
def tenDigits (l : List Char) : List Char :=
  let d := l.filter isDigitChar
  if d.length = 10 then d
  else if d.length = 11 ∧ d.head? = some '1' then d.drop 1
  else if d.length = 11 ∧ d.getLast? = some '0' then d.dropLast
  else []

/-- Model of `clean_phone_number` (src/app.py lines 9-42). -/
def clean_phone_number (phone : CellVal) : String :=
  match phone with
  | .missing => ""
  | .num n => String.mk (tenDigits (toString n).data)
  | .str s => if s = "" then "" else String.mk (tenDigits s.data)

/-- Characters of the result of `tenDigits` are digits and its length is
0 or 10. -/
lemma tenDigits_shape (l : List Char) :
    tenDigits l = [] ∨
      ((tenDigits l).length = 10 ∧ ∀ c ∈ tenDigits l, isDigitChar c = true) := by
  unfold tenDigits
  set d := l.filter isDigitChar with hd
  have hdig : ∀ c ∈ d, isDigitChar c = true := by
    intro c hc
    exact (List.mem_filter.mp hc).2
  by_cases h10 : d.length = 10
  · right
    rw [if_pos h10]
    exact ⟨h10, hdig⟩
  · rw [if_neg h10]
    by_cases h11a : d.length = 11 ∧ d.head? = some '1'
    · right
      rw [if_pos h11a]
      refine ⟨by simp [List.length_drop, h11a.1], ?_⟩
      intro c hc
      exact hdig c (List.mem_of_mem_drop hc)
    · rw [if_neg h11a]
      by_cases h11b : d.length = 11 ∧ d.getLast? = some '0'
      · right
        rw [if_pos h11b]
        refine ⟨by simp [List.length_dropLast, h11b.1], ?_⟩
        intro c hc
        exact hdig c (List.dropLast_subset d hc)
      · left
        rw [if_neg h11b]

/-- The result of `clean_phone_number` is empty or ten digits. -/
lemma clean_phone_number_shape (v : CellVal) :
    clean_phone_number v = "" ∨
      ((clean_phone_number v).length = 10 ∧
        ∀ c ∈ (clean_phone_number v).data, isDigitChar c = true) := by
  have key : ∀ l : List Char, String.mk (tenDigits l) = "" ∨
      ((String.mk (tenDigits l)).length = 10 ∧
        ∀ c ∈ (String.mk (tenDigits l)).data, isDigitChar c = true) := by
    intro l
    rcases tenDigits_shape l with h | ⟨hlen, hdig⟩
    · left
      rw [h]
    · right
      exact ⟨hlen, hdig⟩
  cases v with
  | missing => left; rfl
  | num n => exact key _
  | str s =>
    by_cases hs : s = ""
    · left
      simp [clean_phone_number, hs]
    · simpa [clean_phone_number, hs] using key s.data

/-- Python "cased" character test, ASCII fragment (the data is ASCII). -/
def isCased (c : Char) : Bool :=
  decide ((65 ≤ c.toNat ∧ c.toNat ≤ 90) ∨ (97 ≤ c.toNat ∧ c.toNat ≤ 122))

/-- Characters removed by Python str.strip() with no argument
(ASCII whitespace: tab, newline, vertical tab, form feed,
carriage return, space). -/
def isPySpace (c : Char) : Bool :=
  decide (c.toNat = 32 ∨ (9 ≤ c.toNat ∧ c.toNat ≤ 13))

/-- Regex word character (ASCII fragment of Python \w). -/
def isWordChar (c : Char) : Bool :=
  decide ((65 ≤ c.toNat ∧ c.toNat ≤ 90) ∨ (97 ≤ c.toNat ∧ c.toNat ≤ 122) ∨
    (48 ≤ c.toNat ∧ c.toNat ≤ 57) ∨ c.toNat = 95)

/-- The regex class [A-Z]. -/
def isUpperAscii (c : Char) : Bool := decide (65 ≤ c.toNat ∧ c.toNat ≤ 90)

/-- Python str.strip(): drop leading and trailing whitespace. -/
def pyStrip (l : List Char) : List Char :=
  ((l.dropWhile isPySpace).reverse.dropWhile isPySpace).reverse

/-- Python str.title(): a cased character is uppercased when the previous
character is not cased and lowercased otherwise; the accumulator records
whether the previous character was cased. -/
def pyTitleAux : List Char → Bool → List Char
  | [], _ => []
  | c :: rest, prev =>
    if isCased c then
      (cond prev (Char.toLower c) (Char.toUpper c)) :: pyTitleAux rest true
    else
      c :: pyTitleAux rest false

/-- Substitution re.sub(r"\bMc([A-Z])", r"Mc\1", s) from src/app.py line
63.  The Boolean argument records whether the character before the
current scan position is a word character (for the boundary \b); the
replacement text is identical to the matched text. -/
def subMcRe : Bool → List Char → List Char
  | prevWord, 'M' :: 'c' :: x :: rest =>
    if prevWord = false ∧ isUpperAscii x = true then
      'M' :: 'c' :: x :: subMcRe true rest
    else
      'M' :: subMcRe true ('c' :: x :: rest)
  | _, c :: rest => c :: subMcRe (isWordChar c) rest
  | _, [] => []

/-- Substitution re.sub(r"\bO'([A-Z])", r"O'\1", s) from src/app.py line
64; like subMcRe, the replacement text is identical to the match. -/
def subORe : Bool → List Char → List Char
  | prevWord, 'O' :: '\'' :: x :: rest =>
    if prevWord = false ∧ isUpperAscii x = true then
      'O' :: '\'' :: x :: subORe true rest
    else
      'O' :: subORe true ('\'' :: x :: rest)
  | _, c :: rest => c :: subORe (isWordChar c) rest
  | _, [] => []

/-- Pipeline of src/app.py lines 58-66 on the character list of
str(name): strip, title-case, then the two substitutions, guarded by the
emptiness test of line 55. -/
def nameClean (l : List Char) : List Char :=
  if pyStrip l = [] then []
  else subORe false (subMcRe false (pyTitleAux (pyStrip l) false))

/-- Model of `clean_name_capitalization` (src/app.py lines 44-66). -/
def clean_name_capitalization (name : CellVal) : String :=
  match name with
  | .missing => ""
  | .num n => String.mk (nameClean (toString n).data)
  | .str s => if s = "" then "" else String.mk (nameClean s.data)

/-- Char.ofNat on a scalar value below the surrogate range. -/
lemma toNat_ofNat_lt (n : Nat) (h : n < 55296) : (Char.ofNat n).toNat = n := by
  rw [Char.ofNat, dif_pos (Or.inl h)]
  rfl

/-- Unfolding of Char.toLower. -/
lemma toLower_eq (c : Char) :
    Char.toLower c =
      if c.toNat ≥ 65 ∧ c.toNat ≤ 90 then Char.ofNat (c.toNat + 32) else c := rfl

/-- Unfolding of Char.toUpper. -/
lemma toUpper_eq (c : Char) :
    Char.toUpper c =
      if c.toNat ≥ 97 ∧ c.toNat ≤ 122 then Char.ofNat (c.toNat - 32) else c := rfl

/-- Scalar value of Char.toLower. -/
lemma toNat_toLower (c : Char) :
    (Char.toLower c).toNat =
      if 65 ≤ c.toNat ∧ c.toNat ≤ 90 then c.toNat + 32 else c.toNat := by
  rw [toLower_eq]
  by_cases h : 65 ≤ c.toNat ∧ c.toNat ≤ 90
  · rw [if_pos h, if_pos h, toNat_ofNat_lt]
    omega
  · rw [if_neg h, if_neg h]

/-- Scalar value of Char.toUpper. -/
lemma toNat_toUpper (c : Char) :
    (Char.toUpper c).toNat =
      if 97 ≤ c.toNat ∧ c.toNat ≤ 122 then c.toNat - 32 else c.toNat := by
  rw [toUpper_eq]
  by_cases h : 97 ≤ c.toNat ∧ c.toNat ≤ 122
  · rw [if_pos h, if_pos h, toNat_ofNat_lt]
    omega
  · rw [if_neg h, if_neg h]

/-- Char.toLower is idempotent. -/
lemma toLower_toLower (c : Char) : Char.toLower (Char.toLower c) = Char.toLower c := by
  rw [toLower_eq (Char.toLower c), if_neg]
  rw [toNat_toLower]
  by_cases h : 65 ≤ c.toNat ∧ c.toNat ≤ 90
  · rw [if_pos h]
    omega
  · rw [if_neg h]
    omega

/-- Char.toUpper is idempotent. -/
lemma toUpper_toUpper (c : Char) : Char.toUpper (Char.toUpper c) = Char.toUpper c := by
  rw [toUpper_eq (Char.toUpper c), if_neg]
  rw [toNat_toUpper]
  by_cases h : 97 ≤ c.toNat ∧ c.toNat ≤ 122
  · rw [if_pos h]
    omega
  · rw [if_neg h]
    omega

/-- toLower does not change whether a character is cased. -/
lemma isCased_toLower (c : Char) : isCased (Char.toLower c) = isCased c := by
  unfold isCased
  rw [toNat_toLower]
  by_cases h : 65 ≤ c.toNat ∧ c.toNat ≤ 90
  · rw [if_pos h, decide_eq_decide]
    omega
  · rw [if_neg h]

/-- toUpper does not change whether a character is cased. -/
lemma isCased_toUpper (c : Char) : isCased (Char.toUpper c) = isCased c := by
  unfold isCased
  rw [toNat_toUpper]
  by_cases h : 97 ≤ c.toNat ∧ c.toNat ≤ 122
  · rw [if_pos h, decide_eq_decide]
    omega
  · rw [if_neg h]

/-- toLower does not change whether a character is whitespace. -/
lemma isPySpace_toLower (c : Char) : isPySpace (Char.toLower c) = isPySpace c := by
  unfold isPySpace
  rw [toNat_toLower]
  by_cases h : 65 ≤ c.toNat ∧ c.toNat ≤ 90
  · rw [if_pos h, decide_eq_decide]
    omega
  · rw [if_neg h]

/-- toUpper does not change whether a character is whitespace. -/
lemma isPySpace_toUpper (c : Char) : isPySpace (Char.toUpper c) = isPySpace c := by
  unfold isPySpace
  rw [toNat_toUpper]
  by_cases h : 97 ≤ c.toNat ∧ c.toNat ≤ 122
  · rw [if_pos h, decide_eq_decide]
    omega
  · rw [if_neg h]

/-- One unfolding step of pyTitleAux on a cased head. -/
lemma pyTitleAux_cons_cased {c : Char} (hc : isCased c = true) (rest : List Char)
    (b : Bool) :
    pyTitleAux (c :: rest) b =
      (cond b (Char.toLower c) (Char.toUpper c)) :: pyTitleAux rest true := by
  rw [pyTitleAux, if_pos hc]

/-- One unfolding step of pyTitleAux on an uncased head. -/
lemma pyTitleAux_cons_uncased {c : Char} (hc : ¬ isCased c = true) (rest : List Char)
    (b : Bool) :
    pyTitleAux (c :: rest) b = c :: pyTitleAux rest false := by
  rw [pyTitleAux, if_neg hc]

/-- Title-casing is idempotent when restarted with the same flag. -/
lemma pyTitleAux_idem (l : List Char) :
    ∀ b, pyTitleAux (pyTitleAux l b) b = pyTitleAux l b := by
  induction l with
  | nil => intro b; rfl
  | cons c rest ih =>
    intro b
    by_cases hc : isCased c = true
    · rw [pyTitleAux_cons_cased hc rest b]
      cases b with
      | false =>
        rw [pyTitleAux_cons_cased (by rw [cond_false, isCased_toUpper]; exact hc) _ false]
        rw [cond_false, cond_false, toUpper_toUpper, ih true]
      | true =>
        rw [pyTitleAux_cons_cased (by rw [cond_true, isCased_toLower]; exact hc) _ true]
        rw [cond_true, cond_true, toLower_toLower, ih true]
    · rw [pyTitleAux_cons_uncased hc rest b,
        pyTitleAux_cons_uncased hc (pyTitleAux rest false) b, ih false]

/-- Title-casing preserves the whitespace mask of the string. -/
lemma pyTitleAux_space_map (l : List Char) :
    ∀ b, (pyTitleAux l b).map isPySpace = l.map isPySpace := by
  induction l with
  | nil => intro b; rfl
  | cons c rest ih =>
    intro b
    by_cases hc : isCased c = true
    · rw [pyTitleAux_cons_cased hc rest b, List.map_cons, List.map_cons, ih true]
      cases b with
      | false => rw [cond_false, isPySpace_toUpper]
      | true => rw [cond_true, isPySpace_toLower]
    · rw [pyTitleAux_cons_uncased hc rest b, List.map_cons, List.map_cons, ih false]

/-- The Mc substitution replaces each match by the matched text, so it is
the identity on every string. -/
lemma subMcRe_id (b : Bool) (l : List Char) : subMcRe b l = l := by
  induction b, l using subMcRe.induct with
  | case1 pw x rest h ih => rw [subMcRe, if_pos h, ih]
  | case2 pw x rest h ih => rw [subMcRe, if_neg h, ih]
  | case3 pw c rest h ih =>
    rw [subMcRe, ih]
    exact h
  | case4 pw => rfl

/-- The O-apostrophe substitution replaces each match by the matched
text, so it is the identity on every string. -/
lemma subORe_id (b : Bool) (l : List Char) : subORe b l = l := by
  induction b, l using subORe.induct with
  | case1 pw x rest h ih => rw [subORe, if_pos h, ih]
  | case2 pw x rest h ih => rw [subORe, if_neg h, ih]
  | case3 pw c rest h ih =>
    rw [subORe, ih]
    exact h
  | case4 pw => rfl

/-- The body of nameClean is just the title-casing of the stripped
input. -/
lemma nameClean_eq (l : List Char) :
    nameClean l = if pyStrip l = [] then [] else pyTitleAux (pyStrip l) false := by
  unfold nameClean
  rw [subMcRe_id, subORe_id]

/-- Transfer of dropWhile-fixedness along an equal predicate mask. -/
lemma dropWhile_eq_self_of_map_eq {p : Char → Bool} {l t : List Char}
    (hm : l.map p = t.map p) (h : l.dropWhile p = l) : t.dropWhile p = t := by
  cases t with
  | nil => rfl
  | cons a t2 =>
    cases l with
    | nil => exact absurd hm (by simp)
    | cons b l2 =>
      have hpb : p b = p a := by
        have := congrArg List.head? hm
        simpa using this
      have hb : p b = false := by
        by_contra hcon
        have hbt : p b = true := by
          cases hpbv : p b
          · exact absurd hpbv hcon
          · rfl
        rw [List.dropWhile_cons, if_pos hbt] at h
        have hlen : (l2.dropWhile p).length ≤ l2.length :=
          (List.dropWhile_suffix p).sublist.length_le
        rw [h] at hlen
        simp at hlen
      rw [List.dropWhile_cons, if_neg (by rw [hpb] at hb; simp [hb])]

/-- The stripped string has no leading whitespace. -/
lemma pyStrip_dropWhile (l : List Char) :
    (pyStrip l).dropWhile isPySpace = pyStrip l := by
  set u := l.dropWhile isPySpace with hu
  have hufix : u.dropWhile isPySpace = u := by
    rw [hu]
    exact List.dropWhile_idempotent isPySpace l
  have hpre : pyStrip l <+: u := by
    have hsuf : u.reverse.dropWhile isPySpace <:+ u.reverse :=
      List.dropWhile_suffix isPySpace
    have h2 : (u.reverse.dropWhile isPySpace).reverse <+: u.reverse.reverse :=
      List.reverse_prefix.mpr hsuf
    rw [List.reverse_reverse] at h2
    exact h2
  cases hsplit : pyStrip l with
  | nil => rfl
  | cons a t =>
    rcases hpre with ⟨r, hr⟩
    rw [hsplit] at hr
    have hua : u = a :: (t ++ r) := by rw [← hr]; simp
    rw [hua] at hufix
    have ha : isPySpace a = false := by
      by_contra hcon
      have hat : isPySpace a = true := by
        cases hav : isPySpace a
        · exact absurd hav hcon
        · rfl
      rw [List.dropWhile_cons, if_pos hat] at hufix
      have hlen : ((t ++ r).dropWhile isPySpace).length ≤ (t ++ r).length :=
        (List.dropWhile_suffix isPySpace).sublist.length_le
      rw [hufix] at hlen
      simp at hlen
    rw [List.dropWhile_cons, if_neg (by simp [ha])]

/-- The reverse of the stripped string has no leading whitespace
(equivalently, the stripped string has no trailing whitespace). -/
lemma pyStrip_reverse_dropWhile (l : List Char) :
    (pyStrip l).reverse.dropWhile isPySpace = (pyStrip l).reverse := by
  unfold pyStrip
  rw [List.reverse_reverse]
  exact List.dropWhile_idempotent isPySpace _

/-- Stripping is a no-op on the title-casing of an already stripped
string. -/
lemma pyStrip_pyTitleAux (l : List Char) :
    pyStrip (pyTitleAux (pyStrip l) false) = pyTitleAux (pyStrip l) false := by
  set s := pyStrip l with hs
  set t := pyTitleAux s false with ht
  have hmask : t.map isPySpace = s.map isPySpace := pyTitleAux_space_map s false
  have h1 : t.dropWhile isPySpace = t :=
    dropWhile_eq_self_of_map_eq hmask.symm (pyStrip_dropWhile l)
  have hmaskr : t.reverse.map isPySpace = s.reverse.map isPySpace := by
    rw [List.map_reverse, List.map_reverse, hmask]
  have h2 : t.reverse.dropWhile isPySpace = t.reverse :=
    dropWhile_eq_self_of_map_eq hmaskr.symm (pyStrip_reverse_dropWhile l)
  unfold pyStrip
  rw [h1, h2, List.reverse_reverse]

/-- The core name-cleaning transformation is idempotent. -/
lemma nameClean_idem (l : List Char) : nameClean (nameClean l) = nameClean l := by
  rw [nameClean_eq l]
  by_cases h : pyStrip l = []
  · rw [if_pos h]
    rfl
  · rw [if_neg h]
    rw [nameClean_eq, pyStrip_pyTitleAux]
    by_cases h2 : pyTitleAux (pyStrip l) false = []
    · rw [if_pos h2, h2]
    · rw [if_neg h2, pyTitleAux_idem]

/-- Strings produced by String.mk recover their character list. -/
lemma data_mk (l : List Char) : (String.mk l).data = l := rfl

/-- A nonempty character list gives a string different from the empty
string. -/
lemma mk_ne_empty {l : List Char} (h : l ≠ []) : String.mk l ≠ "" := by
  intro hcon
  exact h (congrArg String.data hcon)

/-- Unfolding of clean_name_capitalization on a string cell. -/
lemma clean_name_str (s : String) :
    clean_name_capitalization (.str s) =
      if s = "" then "" else String.mk (nameClean s.data) := rfl

/-- Re-cleaning an already produced name value changes nothing. -/
lemma clean_str_mk_nameClean (m : List Char) :
    clean_name_capitalization (.str (String.mk (nameClean m))) =
      String.mk (nameClean m) := by
  by_cases h : nameClean m = []
  · rw [h]
    rfl
  · rw [clean_name_str, if_neg (mk_ne_empty h), data_mk, nameClean_idem]

/-- C1: clean_phone_number satisfies the specified normalization test
vectors: the formatted string, the numeric input and the 11-digit input
with a leading country code 1 all normalize to "2142645033"; the
11-digit input "21426450330", which does not begin with "1" and ends
with "0", has its trailing zero stripped; and the 3-digit input "123" is
rejected as the empty string. -/
theorem phone_normalizer_test_vectors :
    clean_phone_number (.str "(214) 264-5033") = "2142645033" ∧
    clean_phone_number (.num 2142645033) = "2142645033" ∧
    clean_phone_number (.str "12142645033") = "2142645033" ∧
    clean_phone_number (.str "21426450330") = "2142645033" ∧
    clean_phone_number (.str "123") = "" := by
  refine ⟨by decide, by decide, by decide, by decide, by decide⟩

/-- C3 (code bug evidence): the casing code of src/app.py lines 63-64
replaces each regex match by the very text it matched, so it never forces
an uppercase letter after "Mc"; on "mcdonald" the code produces
"Mcdonald", not the "McDonald" required by the specification, while
"o'brien" happens to come out as "O'Brien" only because Python
title-casing capitalizes after the apostrophe. -/
theorem name_normalizer_mc_bug :
    clean_name_capitalization (.str "mcdonald") = "Mcdonald" ∧
    clean_name_capitalization (.str "mcdonald") ≠ "McDonald" ∧
    clean_name_capitalization (.str "o'brien") = "O'Brien" := by
  refine ⟨by decide, by decide, by decide⟩

/-- Re-applying clean_name_capitalization to one of its results returns
that result unchanged. -/
lemma clean_name_reapply (x : CellVal) :
    clean_name_capitalization (.str (clean_name_capitalization x)) =
      clean_name_capitalization x := by
  cases x with
  | missing => rfl
  | num n => exact clean_str_mk_nameClean _
  | str s =>
    rw [clean_name_str s]
    by_cases hs : s = ""
    · rw [if_pos hs]
      rfl
    · rw [if_neg hs]
      exact clean_str_mk_nameClean _

/-- C7: name normalization is idempotent: re-applying
clean_name_capitalization to one of its own results (as the pipeline does
at its final step) returns that result unchanged, for every possible
input cell. -/
theorem name_normalizer_idempotent (x : CellVal) :
    clean_name_capitalization (.str (clean_name_capitalization x)) =
      clean_name_capitalization x := clean_name_reapply x

/-- Python s.lower() on the characters of a string. -/
def pyLower (s : String) : String := String.mk (s.data.map Char.toLower)

/-- Boolean infix test on character lists, the model of the Python
substring operator for the case-insensitive contains of line 217. -/
def listContainsSeq (pat l : List Char) : Bool :=
  l.tails.any (fun t => pat.isPrefixOf t)

/-- Model of df["DNC/Litigator Scrub"].astype(str).str.contains("DNC",
case=False, na=False) for one cell (src/app.py line 217): stringify,
lowercase, and look for the substring "dnc". -/
def containsDNC (v : CellVal) : Bool :=
  listContainsSeq "dnc".data (pyLower (pyStr v)).data

/-- An input row with the seven columns the program reads.  Fields keep
the source column order: the DNC flag, the two matched name columns, and
the two phone slots with their types. -/
structure Row where
  dnc : CellVal
  firstName : CellVal
  lastName : CellVal
  phone1 : CellVal
  phone1Type : CellVal
  phone2 : CellVal
  phone2Type : CellVal
deriving DecidableEq, Repr

/-- The uploaded table: its column-name list (used by the schema checks)
and its rows. -/
structure Table where
  cols : List String
  rows : List Row
deriving DecidableEq, Repr

/-- The six columns required by process_phone_data (src/app.py line
223). -/
def requiredColumns : List String :=
  ["Matched First Name", "Matched Last Name", "Phone1", "Phone1 Type",
   "Phone2", "Phone2 Type"]

/-- The seven columns required by validate_input_file (src/app.py lines
309-310). -/
def requiredColumnsFull : List String :=
  "DNC/Litigator Scrub" :: requiredColumns

/-- The missing-column list computed at src/app.py line 224. -/
def missingColumns (cols : List String) : List String :=
  requiredColumns.filter (fun c => !(decide (c ∈ cols)))

/-- The missing-column list computed at src/app.py line 311. -/
def missingColumnsFull (cols : List String) : List String :=
  requiredColumnsFull.filter (fun c => !(decide (c ∈ cols)))

/-- A row after step 2 (column selection) and step 3 (capitalizing the
name columns and inserting the duplicate name columns used for the
Phone2 slot), src/app.py lines 230-241. -/
structure SelRow where
  firstName : CellVal
  lastName : CellVal
  phone1 : CellVal
  phone1Type : CellVal
  phone2 : CellVal
  phone2Type : CellVal
  firstName2 : CellVal
  lastName2 : CellVal
deriving DecidableEq, Repr

/-- Steps 2 and 3 on one row. -/
def selectAndCap (r : Row) : SelRow :=
  { firstName := .str (clean_name_capitalization r.firstName)
    lastName := .str (clean_name_capitalization r.lastName)
    phone1 := r.phone1
    phone1Type := r.phone1Type
    phone2 := r.phone2
    phone2Type := r.phone2Type
    firstName2 := .str (clean_name_capitalization r.firstName)
    lastName2 := .str (clean_name_capitalization r.lastName) }

/-- A stacked per-phone record (the dict appended at src/app.py lines
252-257 and 261-266). -/
structure StackRec where
  firstName : CellVal
  lastName : CellVal
  phone : CellVal
  phoneType : CellVal
deriving DecidableEq, Repr

/-- The emission condition of src/app.py lines 251 and 260:
pd.notna(v) and v != "" and str(v) != "0". -/
def slotOk (v : CellVal) : Bool :=
  notnaB v && !(cellIsEmptyStr v) && !(pyStr v == "0")

/-- The phone-type value stored with a stacked record: the raw cell when
present, the empty string otherwise (src/app.py lines 256 and 265). -/
def typeCell (v : CellVal) : CellVal :=
  if notnaB v then v else .str ""

/-- Rows emitted for one record by the stacking loop body: the Phone1
slot first, then the Phone2 slot, each guarded by slotOk. -/
def rowStack (r : SelRow) : List StackRec :=
  (if slotOk r.phone1 then
    [{ firstName := r.firstName, lastName := r.lastName,
       phone := r.phone1, phoneType := typeCell r.phone1Type }]
   else []) ++
  (if slotOk r.phone2 then
    [{ firstName := r.firstName2, lastName := r.lastName2,
       phone := r.phone2, phoneType := typeCell r.phone2Type }]
   else [])

/-- The stacking loop of src/app.py lines 246-266: iterate the rows in
order, appending the emitted records to the accumulator list. -/
def stackLoop (rows : List SelRow) : List StackRec :=
  rows.foldl (fun acc r => acc ++ rowStack r) []

/-- The mobile-type filter of src/app.py line 277 on a stored type
value. -/
def isMobileRec (p : StackRec) : Bool := pyLower (pyStr p.phoneType) == "mobile"

/-- A record of steps 6-7: names still raw cells, phone already
normalized to a string. -/
structure MidRec where
  firstName : CellVal
  lastName : CellVal
  phone : String
deriving DecidableEq, Repr

/-- A final output row: First Name, Last Name, Phone. -/
structure CleanRec where
  firstName : String
  lastName : String
  phone : String
deriving DecidableEq, Repr

/-- Step 7 first half (src/app.py line 290): normalize the phone cell of
a record, keeping the name cells. -/
def toMid (p : StackRec) : MidRec :=
  { firstName := p.firstName, lastName := p.lastName,
    phone := clean_phone_number p.phone }

/-- Step 7 second half (src/app.py line 293): keep only records whose
normalized phone is nonempty. -/
def keepPhone (q : MidRec) : Bool := !(q.phone == "")

/-- Step 8 (src/app.py lines 298-299): re-apply name capitalization to
both name cells of a surviving record. -/
def finalizeRec (q : MidRec) : CleanRec :=
  { firstName := clean_name_capitalization q.firstName,
    lastName := clean_name_capitalization q.lastName,
    phone := q.phone }

/-- Model of `process_phone_data` (src/app.py lines 196-303): DNC row
filter, schema check on the six working columns, name capitalization and
column duplication, stacking, mobile filter, phone normalization with
removal of invalid phones, and the final re-capitalization. -/
def process_phone_data (t : Table) : List CleanRec :=
  let rows1 := t.rows.filter (fun r => !(containsDNC r.dnc))
  if missingColumns t.cols ≠ [] then []
  else
    let sel := rows1.map selectAndCap
    let stacked := stackLoop sel
    if stacked.length = 0 then []
    else
      let mobile := stacked.filter isMobileRec
      if mobile.length = 0 then []
      else
        let mid := mobile.map toMid
        let kept := mid.filter keepPhone
        kept.map finalizeRec

/-- Model of `validate_input_file` (src/app.py lines 305-317). -/
def validate_input_file (t : Table) : Bool :=
  (missingColumnsFull t.cols).isEmpty

/-- The main control flow around the pipeline (src/app.py lines
385-390): the table is processed only when validation succeeds; a failed
validation reports the missing columns and produces no output rows. -/
def runPipeline (t : Table) : List CleanRec :=
  if validate_input_file t then process_phone_data t else []

/-- The mobile-type test expressed on the raw type cell. -/
def mobileOk (v : CellVal) : Bool := pyLower (pyStr (typeCell v)) == "mobile"

/-- The final rows contributed by one phone slot of one surviving input
row: one row when the slot is populated, of mobile type and normalizes
to a nonempty phone, none otherwise. -/
def emitSlot (fn ln ph pt : CellVal) : List CleanRec :=
  if slotOk ph && mobileOk pt && !(clean_phone_number ph == "") then
    [{ firstName := clean_name_capitalization fn,
       lastName := clean_name_capitalization ln,
       phone := clean_phone_number ph }]
  else []

/-- The final rows contributed by one surviving input row: Phone1 slot
first, then Phone2, both carrying the cleaned name pair of the row. -/
def rowClean (r : Row) : List CleanRec :=
  emitSlot r.firstName r.lastName r.phone1 r.phone1Type ++
  emitSlot r.firstName r.lastName r.phone2 r.phone2Type

/-- Folding append over a list starting from an accumulator is the
accumulator followed by the flattened images. -/
lemma foldl_append_eq_flatMap {α β : Type} (f : α → List β) (l : List α) :
    ∀ acc : List β, l.foldl (fun a r => a ++ f r) acc = acc ++ l.flatMap f := by
  induction l with
  | nil => intro acc; simp
  | cons x xs ih =>
    intro acc
    rw [List.foldl_cons, ih (acc ++ f x), List.flatMap_cons, List.append_assoc]

/-- The stacking loop equals the flattened per-row emissions, in source
row order. -/
lemma stackLoop_eq_flatMap (rows : List SelRow) :
    stackLoop rows = rows.flatMap rowStack := by
  unfold stackLoop
  rw [foldl_append_eq_flatMap rowStack rows []]
  rfl

/-- Inside process_phone_data, the two empty-stage early returns agree
with the value of the full chain, so once the schema check passes the
result is always the filter-map chain over the stacked records. -/
lemma process_eq_chain (t : Table) (h : missingColumns t.cols = []) :
    process_phone_data t =
      ((((stackLoop ((t.rows.filter (fun r => !(containsDNC r.dnc))).map
            selectAndCap)).filter isMobileRec).map toMid).filter
              keepPhone).map finalizeRec := by
  unfold process_phone_data
  rw [if_neg (by simp [h])]
  dsimp only
  by_cases h1 :
      (stackLoop ((t.rows.filter (fun r => !(containsDNC r.dnc))).map
        selectAndCap)).length = 0
  · rw [if_pos h1]
    have : stackLoop ((t.rows.filter (fun r => !(containsDNC r.dnc))).map
        selectAndCap) = [] := List.length_eq_zero.mp h1
    rw [this]
    rfl
  · rw [if_neg h1]
    by_cases h2 :
        ((stackLoop ((t.rows.filter (fun r => !(containsDNC r.dnc))).map
          selectAndCap)).filter isMobileRec).length = 0
    · rw [if_pos h2]
      have : (stackLoop ((t.rows.filter (fun r => !(containsDNC r.dnc))).map
          selectAndCap)).filter isMobileRec = [] := List.length_eq_zero.mp h2
      rw [this]
      rfl
    · rw [if_neg h2]

/-- Pushing one slot of a stacked record through the mobile filter,
phone normalization, validity filter and final re-capitalization yields
exactly the emitSlot rows. -/
lemma perSlot_chain (fn ln ph pt : CellVal) :
    ((((if slotOk ph = true then
        ([{ firstName := .str (clean_name_capitalization fn),
            lastName := .str (clean_name_capitalization ln),
            phone := ph, phoneType := typeCell pt }] : List StackRec) else
        ([] : List StackRec)).filter isMobileRec).map toMid).filter
          keepPhone).map finalizeRec = emitSlot fn ln ph pt := by
  simp only [emitSlot, isMobileRec, mobileOk, toMid, keepPhone, finalizeRec]
  cases hb1 : slotOk ph
  · simp [hb1]
  · by_cases hb2 : (pyLower (pyStr (typeCell pt)) == "mobile") = true
    · by_cases hb3 : (clean_phone_number ph == "") = true
      · simp [hb1, hb2, hb3, List.filter_cons, isMobileRec, toMid, keepPhone]
      · simp [hb1, hb2, hb3, List.filter_cons, isMobileRec, toMid, keepPhone,
          finalizeRec, clean_name_reapply]
    · simp [hb1, hb2, List.filter_cons, isMobileRec, toMid, keepPhone]

/-- The full post-stacking chain on the records of one selected row. -/
lemma perRow_chain (r : Row) :
    ((((rowStack (selectAndCap r)).filter isMobileRec).map toMid).filter
      keepPhone).map finalizeRec = rowClean r := by
  unfold rowStack selectAndCap rowClean
  rw [List.filter_append, List.map_append, List.filter_append, List.map_append]
  dsimp only
  rw [perSlot_chain, perSlot_chain]

/-- Normal form of process_phone_data: once the schema check passes, the
output is the flattened per-row contributions of the DNC-surviving rows,
in source order. -/
lemma process_phone_data_eq (t : Table) (h : missingColumns t.cols = []) :
    process_phone_data t =
      (t.rows.filter (fun r => !(containsDNC r.dnc))).flatMap rowClean := by
  rw [process_eq_chain t h, stackLoop_eq_flatMap, List.filter_flatMap,
    List.map_flatMap, List.filter_flatMap, List.map_flatMap, List.flatMap_map]
  exact List.flatMap_congr (fun r _ => perRow_chain r)

/-- A failed schema check makes process_phone_data return the empty
table. -/
lemma process_empty_of_missing (t : Table) (h : missingColumns t.cols ≠ []) :
    process_phone_data t = [] := by
  unfold process_phone_data
  rw [if_pos h]

/-- Any row of an emitSlot result carries the nonempty normalized phone
of that slot. -/
lemma emitSlot_phone {fn ln ph pt : CellVal} {rec : CleanRec}
    (h : rec ∈ emitSlot fn ln ph pt) :
    rec.phone = clean_phone_number ph ∧ clean_phone_number ph ≠ "" := by
  unfold emitSlot at h
  by_cases hc : (slotOk ph && mobileOk pt && !(clean_phone_number ph == "")) = true
  · rw [if_pos hc] at h
    have hrec := List.mem_singleton.mp h
    subst hrec
    refine ⟨rfl, ?_⟩
    intro hcon
    rw [hcon] at hc
    simp at hc
  · rw [if_neg hc] at h
    simp at h

/-- C2: every result of clean_phone_number is the empty string or a
string of exactly ten ASCII digits, and consequently every row surviving
the final filter of process_phone_data carries a phone of exactly ten
ASCII digits. -/
theorem phone_values_ten_digits :
    (∀ v : CellVal, clean_phone_number v = "" ∨
      ((clean_phone_number v).length = 10 ∧
        ∀ c ∈ (clean_phone_number v).data, isDigitChar c = true)) ∧
    (∀ (t : Table) (rec : CleanRec), rec ∈ process_phone_data t →
      rec.phone.length = 10 ∧ ∀ c ∈ rec.phone.data, isDigitChar c = true) := by
  refine ⟨clean_phone_number_shape, ?_⟩
  intro t rec hmem
  have hphone : ∃ ph : CellVal,
      rec.phone = clean_phone_number ph ∧ clean_phone_number ph ≠ "" := by
    by_cases h : missingColumns t.cols = []
    · rw [process_phone_data_eq t h] at hmem
      rcases List.mem_flatMap.mp hmem with ⟨r, _, hrec⟩
      rcases List.mem_append.mp hrec with h1 | h2
      · exact ⟨r.phone1, emitSlot_phone h1⟩
      · exact ⟨r.phone2, emitSlot_phone h2⟩
    · rw [process_empty_of_missing t h] at hmem
      simp at hmem
  rcases hphone with ⟨ph, hrec, hne⟩
  rcases clean_phone_number_shape ph with h0 | hgood
  · exact absurd h0 hne
  · rw [hrec]
    exact hgood

/-- C2 witness at a concrete table: the single surviving row has a
ten-digit phone. -/
theorem phone_values_ten_digits_witness :
    (⟨"John", "O'Brien", "2142645033"⟩ : CleanRec).phone.length = 10 ∧
      (∀ c ∈ (⟨"John", "O'Brien", "2142645033"⟩ : CleanRec).phone.data,
        isDigitChar c = true) :=
  phone_values_ten_digits.2
    { cols := requiredColumnsFull,
      rows := [{ dnc := .str "clean", firstName := .str "joHN",
                 lastName := .str "o'brien",
                 phone1 := .str "(214) 264-5033", phone1Type := .str "Mobile",
                 phone2 := .str "0", phone2Type := .missing }] }
    ⟨"John", "O'Brien", "2142645033"⟩
    (by decide)

/-- C4: the stacking loop emits, in source row order, exactly one record
per phone slot whose value passes the presence test (present, nonempty,
not the literal "0"), slot 1 before slot 2 within a row; a row with both
slots populated contributes exactly the two records in slot order, and a
row with neither contributes nothing. -/
theorem record_stacker_emission :
    (∀ rows : List SelRow, stackLoop rows = rows.flatMap rowStack) ∧
    (∀ r : SelRow, (rowStack r).length =
      (if slotOk r.phone1 = true then 1 else 0) +
      (if slotOk r.phone2 = true then 1 else 0)) ∧
    (∀ r : SelRow, slotOk r.phone1 = true → slotOk r.phone2 = true →
      rowStack r =
        [{ firstName := r.firstName, lastName := r.lastName,
           phone := r.phone1, phoneType := typeCell r.phone1Type },
         { firstName := r.firstName2, lastName := r.lastName2,
           phone := r.phone2, phoneType := typeCell r.phone2Type }]) ∧
    (∀ r : SelRow, slotOk r.phone1 = false → slotOk r.phone2 = false →
      rowStack r = []) := by
  refine ⟨stackLoop_eq_flatMap, ?_, ?_, ?_⟩
  · intro r
    unfold rowStack
    by_cases h1 : slotOk r.phone1 = true
    · by_cases h2 : slotOk r.phone2 = true
      · rw [if_pos h1, if_pos h2, if_pos h1, if_pos h2]
        rfl
      · rw [if_pos h1, if_neg h2, if_pos h1, if_neg h2]
        rfl
    · by_cases h2 : slotOk r.phone2 = true
      · rw [if_neg h1, if_pos h2, if_neg h1, if_pos h2]
        rfl
      · rw [if_neg h1, if_neg h2, if_neg h1, if_neg h2]
        rfl
  · intro r h1 h2
    unfold rowStack
    rw [if_pos h1, if_pos h2]
    rfl
  · intro r h1 h2
    unfold rowStack
    rw [if_neg (by simp [h1]), if_neg (by simp [h2])]
    rfl

/-- C4 witness: a concrete row with both phone slots populated yields
exactly its two records, slot 1 first. -/
theorem record_stacker_emission_witness :
    rowStack
      { firstName := .str "A", lastName := .str "B",
        phone1 := .str "2142645033", phone1Type := .str "Mobile",
        phone2 := .num 3364024962, phone2Type := .str "mobile",
        firstName2 := .str "A", lastName2 := .str "B" } =
      [{ firstName := .str "A", lastName := .str "B",
         phone := .str "2142645033", phoneType := .str "Mobile" },
       { firstName := .str "A", lastName := .str "B",
         phone := .num 3364024962, phoneType := .str "mobile" }] :=
  record_stacker_emission.2.2.1
    { firstName := .str "A", lastName := .str "B",
      phone1 := .str "2142645033", phone1Type := .str "Mobile",
      phone2 := .num 3364024962, phone2Type := .str "mobile",
      firstName2 := .str "A", lastName2 := .str "B" }
    (by decide) (by decide)

/-- C6: when any required source column is absent, validation fails, the
missing-column report names exactly the absent required columns, and the
run produces no output rows at all. -/
theorem schema_validation_failure (t : Table) (c : String)
    (hc : c ∈ requiredColumnsFull) (habs : c ∉ t.cols) :
    validate_input_file t = false ∧
    runPipeline t = [] ∧
    c ∈ missingColumnsFull t.cols ∧
    (∀ d, d ∈ missingColumnsFull t.cols ↔ (d ∈ requiredColumnsFull ∧ d ∉ t.cols)) := by
  have hchar : ∀ d, d ∈ missingColumnsFull t.cols ↔
      (d ∈ requiredColumnsFull ∧ d ∉ t.cols) := by
    intro d
    unfold missingColumnsFull
    rw [List.mem_filter]
    simp
  have hmem : c ∈ missingColumnsFull t.cols := (hchar c).mpr ⟨hc, habs⟩
  have hne : missingColumnsFull t.cols ≠ [] := by
    intro h0
    rw [h0] at hmem
    simp at hmem
  have hval : validate_input_file t = false := by
    unfold validate_input_file
    simpa using hne
  refine ⟨hval, ?_, hmem, hchar⟩
  unfold runPipeline
  rw [hval]
  simp

/-- C6 witness: a table whose columns list lacks "Phone2" fails
validation and yields no output. -/
theorem schema_validation_failure_witness :
    validate_input_file { cols := ["DNC/Litigator Scrub", "Matched First Name",
      "Matched Last Name", "Phone1", "Phone1 Type", "Phone2 Type"], rows := [] } = false ∧
    runPipeline { cols := ["DNC/Litigator Scrub", "Matched First Name",
      "Matched Last Name", "Phone1", "Phone1 Type", "Phone2 Type"], rows := [] } = [] ∧
    "Phone2" ∈ missingColumnsFull ["DNC/Litigator Scrub", "Matched First Name",
      "Matched Last Name", "Phone1", "Phone1 Type", "Phone2 Type"] ∧
    (∀ d, d ∈ missingColumnsFull ["DNC/Litigator Scrub", "Matched First Name",
      "Matched Last Name", "Phone1", "Phone1 Type", "Phone2 Type"] ↔
        (d ∈ requiredColumnsFull ∧ d ∉ ["DNC/Litigator Scrub", "Matched First Name",
          "Matched Last Name", "Phone1", "Phone1 Type", "Phone2 Type"])) :=
  schema_validation_failure
    { cols := ["DNC/Litigator Scrub", "Matched First Name", "Matched Last Name",
      "Phone1", "Phone1 Type", "Phone2 Type"], rows := [] }
    "Phone2" (by decide) (by decide)

/-- Blanking the name cells of a row, leaving everything else. -/
def eraseNames (r : Row) : Row :=
  { r with firstName := .missing, lastName := .missing }

/-- Blanking the name cells of every row of a table. -/
def eraseNamesTable (t : Table) : Table :=
  { cols := t.cols, rows := t.rows.map eraseNames }

/-- The phones emitted for a slot do not depend on the name cells. -/
lemma emitSlot_phone_map (fn ln fn2 ln2 ph pt : CellVal) :
    (emitSlot fn ln ph pt).map (fun rec => rec.phone) =
      (emitSlot fn2 ln2 ph pt).map (fun rec => rec.phone) := by
  unfold emitSlot
  by_cases hc : (slotOk ph && mobileOk pt && !(clean_phone_number ph == "")) = true
  · rw [if_pos hc, if_pos hc]
    rfl
  · rw [if_neg hc, if_neg hc]

/-- The phones emitted for a row do not depend on its name cells. -/
lemma rowClean_phone_erase (r : Row) :
    (rowClean (eraseNames r)).map (fun rec => rec.phone) =
      (rowClean r).map (fun rec => rec.phone) := by
  unfold rowClean eraseNames
  dsimp only
  rw [List.map_append, List.map_append,
    emitSlot_phone_map .missing .missing r.firstName r.lastName r.phone1 r.phone1Type,
    emitSlot_phone_map .missing .missing r.firstName r.lastName r.phone2 r.phone2Type]

/-- C10: rows are never dropped because of their name fields.  The
sequence of output phones is unchanged when every name cell is blanked;
missing and whitespace-only names normalize to the empty string; and a
DNC-surviving row whose Phone1 slot is populated, of mobile type, and
normalizes to a nonempty phone is emitted no matter what its name cells
hold, in particular with empty-string name fields when the names are
blank.  Only the phone value decides dropping. -/
theorem names_never_drop_rows (t : Table) (h : missingColumns t.cols = []) :
    ((process_phone_data t).map (fun rec => rec.phone) =
      (process_phone_data (eraseNamesTable t)).map (fun rec => rec.phone)) ∧
    (∀ s : String, pyStrip s.data = [] → clean_name_capitalization (.str s) = "") ∧
    clean_name_capitalization .missing = "" ∧
    (∀ r ∈ t.rows, containsDNC r.dnc = false → slotOk r.phone1 = true →
      mobileOk r.phone1Type = true → clean_phone_number r.phone1 ≠ "" →
      ({ firstName := clean_name_capitalization r.firstName,
         lastName := clean_name_capitalization r.lastName,
         phone := clean_phone_number r.phone1 } : CleanRec) ∈
        process_phone_data t) := by
  refine ⟨?_, ?_, rfl, ?_⟩
  · rw [process_phone_data_eq t h, process_phone_data_eq (eraseNamesTable t) h]
    show ((t.rows.filter (fun r => !(containsDNC r.dnc))).flatMap rowClean).map
        (fun rec => rec.phone) =
      (((t.rows.map eraseNames).filter
        (fun r => !(containsDNC r.dnc))).flatMap rowClean).map (fun rec => rec.phone)
    rw [List.filter_map, List.flatMap_map, List.map_flatMap, List.map_flatMap]
    exact List.flatMap_congr (fun r _ => (rowClean_phone_erase r).symm)
  · intro s hs
    rw [clean_name_str]
    by_cases h0 : s = ""
    · rw [if_pos h0]
    · rw [if_neg h0]
      unfold nameClean
      rw [if_pos hs]
  · intro r hr hdnc h1 hm hne
    rw [process_phone_data_eq t h]
    refine List.mem_flatMap.mpr ⟨r, ?_, ?_⟩
    · exact List.mem_filter.mpr ⟨hr, by simp [hdnc]⟩
    · unfold rowClean
      refine List.mem_append.mpr (Or.inl ?_)
      unfold emitSlot
      rw [if_pos (by simp [h1, hm, hne])]
      exact List.mem_singleton.mpr rfl

/-- C10 witness: a row whose first name is whitespace-only and whose
last name is missing is still emitted, with empty name fields, because
its Phone1 slot is valid. -/
theorem names_never_drop_rows_witness :
    clean_name_capitalization (.str "   ") = "" ∧
    ({ firstName := clean_name_capitalization (.str "   "),
       lastName := clean_name_capitalization .missing,
       phone := clean_phone_number (.str "2142645033") } : CleanRec) ∈
      process_phone_data
        { cols := requiredColumnsFull,
          rows := [{ dnc := .missing, firstName := .str "   ",
                     lastName := .missing,
                     phone1 := .str "2142645033", phone1Type := .str "MOBILE",
                     phone2 := .missing, phone2Type := .missing }] } := by
  refine ⟨?_, ?_⟩
  · exact (names_never_drop_rows
      { cols := requiredColumnsFull,
        rows := [{ dnc := .missing, firstName := .str "   ",
                   lastName := .missing,
                   phone1 := .str "2142645033", phone1Type := .str "MOBILE",
                   phone2 := .missing, phone2Type := .missing }] }
      (by decide)).2.1 "   " (by decide)
  · exact (names_never_drop_rows
      { cols := requiredColumnsFull,
        rows := [{ dnc := .missing, firstName := .str "   ",
                   lastName := .missing,
                   phone1 := .str "2142645033", phone1Type := .str "MOBILE",
                   phone2 := .missing, phone2Type := .missing }] }
      (by decide)).2.2.2
      { dnc := .missing, firstName := .str "   ", lastName := .missing,
        phone1 := .str "2142645033", phone1Type := .str "MOBILE",
        phone2 := .missing, phone2Type := .missing }
      (by decide) (by decide) (by decide) (by decide) (by decide)

/-- Characters the filename code strips: the regex class in
re.sub(r'[<>:"/\\|?*]', '', code) at src/app.py lines 83 and 107. -/
def isForbiddenChar (c : Char) : Bool :=
  c ∈ ['<', '>', ':', '"', '/', '\\', '|', '?', '*']

/-- The cleaned property reference code: forbidden characters removed,
then spaces replaced by underscores (src/app.py lines 83-84 and
107-108). -/
def cleanCode (code : String) : String :=
  String.mk ((code.data.filter (fun c => !(isForbiddenChar c))).map
    (fun c => if c = ' ' then '_' else c))

/-- Model of `generate_roor_ready_filename` (src/app.py lines 68-89).
The current date, read from the clock in the source, is passed in as
dateStr (YYYYMMDD). -/
def generate_roor_ready_filename (property_reference_code dateStr : String) : String :=
  dateStr ++ "_" ++ cleanCode property_reference_code ++ "_Roor-Ready.csv"

/-- Model of `generate_slybroadcast_filename` (src/app.py lines
91-113). -/
def generate_slybroadcast_filename
    (property_reference_code group_letter dateStr : String) : String :=
  dateStr ++ "_" ++ cleanCode property_reference_code ++
    "_Slybroadcast-Ready_Group" ++ group_letter ++ ".csv"

/-- The group letter for a 0-based batch index (src/app.py lines
175-181): a single letter A..Z below 26, two letters computed from
(i-26)/26 and (i-26)%26 from 26 on. -/
def groupLetter (i : Nat) : String :=
  if i < 26 then String.mk [Char.ofNat (65 + i)]
  else String.mk [Char.ofNat (65 + (i - 26) / 26), Char.ofNat (65 + (i - 26) % 26)]

/-- The loop of src/app.py lines 170-192: the Python code walks the slice
offsets i = 0, 250, 500, ... with batch phone_numbers[i:i+250] and group
index i // 250; this model walks the remaining list, carrying the group
index directly, so the batch is the first 250 of the remainder.  Each
iteration records the generated filename with the batch contents. -/
def slyChunks (code dateStr : String) : List String → Nat → List (String × List String)
  | [], _ => []
  | c :: rest, g =>
    (generate_slybroadcast_filename code (groupLetter g) dateStr,
      (c :: rest).take 250) ::
      slyChunks code dateStr ((c :: rest).drop 250) (g + 1)
  termination_by l _ => l.length
  decreasing_by
    simp only [List.length_drop, List.length_cons]
    omega

/-- Model of `create_slybroadcast_files` (src/app.py lines 154-194): the
ordered association of generated filenames to batches of at most 250
numbers. -/
def create_slybroadcast_files
    (phone_numbers : List String) (property_reference_code dateStr : String) :
    List (String × List String) :=
  slyChunks property_reference_code dateStr phone_numbers 0

/-- The fixed test numbers of src/app.py line 147. -/
def testNumbers : List String := ["2142645033", "3364024962"]

/-- Model of `add_test_numbers_to_slybroadcast` (src/app.py lines
136-152). -/
def add_test_numbers_to_slybroadcast (phone_numbers : List String) : List String :=
  testNumbers ++ phone_numbers

/-- Unfolding of slyChunks on a nonempty remainder. -/
lemma slyChunks_ne (code dateStr : String) (l : List String) (g : Nat) (h : l ≠ []) :
    slyChunks code dateStr l g =
      (generate_slybroadcast_filename code (groupLetter g) dateStr, l.take 250) ::
        slyChunks code dateStr (l.drop 250) (g + 1) := by
  cases l with
  | nil => exact absurd rfl h
  | cons c rest => rw [slyChunks]

/-- Concatenating the batches of slyChunks restores the input list. -/
lemma slyChunks_flatten (code dateStr : String) :
    ∀ (n : Nat) (l : List String) (g : Nat), l.length ≤ n →
      ((slyChunks code dateStr l g).map (fun pr => pr.2)).flatten = l := by
  intro n
  induction n with
  | zero =>
    intro l g hl
    have h0 : l = [] := List.length_eq_zero.mp (Nat.le_zero.mp hl)
    subst h0
    rw [slyChunks]
    rfl
  | succ n ih =>
    intro l g hl
    cases l with
    | nil =>
      rw [slyChunks]
      rfl
    | cons c rest =>
      rw [slyChunks, List.map_cons, List.flatten_cons,
        ih ((c :: rest).drop 250) (g + 1)
          (by simp only [List.length_drop, List.length_cons]
              simp only [List.length_cons] at hl
              omega)]
      exact List.take_append_drop 250 (c :: rest)

/-- Every batch of slyChunks holds at most 250 numbers. -/
lemma slyChunks_sizes (code dateStr : String) :
    ∀ (n : Nat) (l : List String) (g : Nat), l.length ≤ n →
      ∀ pr ∈ slyChunks code dateStr l g, pr.2.length ≤ 250 := by
  intro n
  induction n with
  | zero =>
    intro l g hl
    have h0 : l = [] := List.length_eq_zero.mp (Nat.le_zero.mp hl)
    subst h0
    intro pr hpr
    simp [slyChunks] at hpr
  | succ n ih =>
    intro l g hl
    cases l with
    | nil =>
      intro pr hpr
      simp [slyChunks] at hpr
    | cons c rest =>
      intro pr hpr
      rw [slyChunks] at hpr
      rcases List.mem_cons.mp hpr with h1 | h2
      · subst h1
        exact List.length_take_le 250 (c :: rest)
      · exact ih ((c :: rest).drop 250) (g + 1)
          (by simp only [List.length_drop, List.length_cons]
              simp only [List.length_cons] at hl
              omega) pr h2

/-- The filenames of slyChunks carry the successive group letters
starting at the initial group index. -/
lemma slyChunks_labels (code dateStr : String) :
    ∀ (n : Nat) (l : List String) (g : Nat), l.length ≤ n →
      (slyChunks code dateStr l g).map (fun pr => pr.1) =
        (List.range' g (slyChunks code dateStr l g).length).map
          (fun k => generate_slybroadcast_filename code (groupLetter k) dateStr) := by
  intro n
  induction n with
  | zero =>
    intro l g hl
    have h0 : l = [] := List.length_eq_zero.mp (Nat.le_zero.mp hl)
    subst h0
    rw [slyChunks]
    rfl
  | succ n ih =>
    intro l g hl
    cases l with
    | nil =>
      rw [slyChunks]
      rfl
    | cons c rest =>
      rw [slyChunks, List.map_cons, List.length_cons, List.range'_succ,
        List.map_cons]
      rw [ih ((c :: rest).drop 250) (g + 1)
        (by simp only [List.length_drop, List.length_cons]
            simp only [List.length_cons] at hl
            omega)]

/-- C5: create_slybroadcast_files splits the phone list into contiguous
ordered chunks of at most 250 (the last possibly shorter) whose
concatenation restores the input exactly; batch index k is labeled with
the base-26 letter scheme of the source (single letter below 26, the
two-letter form from 26 on); and 600 numbers yield exactly the three
batches A, B, C of sizes 250, 250, 100. -/
theorem output_batcher (phones : List String) (code dateStr : String) :
    ((create_slybroadcast_files phones code dateStr).map
      (fun pr => pr.2)).flatten = phones ∧
    (∀ pr ∈ create_slybroadcast_files phones code dateStr, pr.2.length ≤ 250) ∧
    ((create_slybroadcast_files phones code dateStr).map (fun pr => pr.1) =
      (List.range' 0 (create_slybroadcast_files phones code dateStr).length).map
        (fun k => generate_slybroadcast_filename code (groupLetter k) dateStr)) ∧
    (∀ k, k < 26 → groupLetter k = String.mk [Char.ofNat (65 + k)]) ∧
    (∀ k, 26 ≤ k → groupLetter k =
      String.mk [Char.ofNat (65 + (k - 26) / 26), Char.ofNat (65 + (k - 26) % 26)]) ∧
    (phones.length = 600 →
      (create_slybroadcast_files phones code dateStr).map
        (fun pr => (pr.1, pr.2.length)) =
        [(generate_slybroadcast_filename code "A" dateStr, 250),
         (generate_slybroadcast_filename code "B" dateStr, 250),
         (generate_slybroadcast_filename code "C" dateStr, 100)]) := by
  refine ⟨slyChunks_flatten code dateStr phones.length phones 0 (Nat.le_refl _),
    slyChunks_sizes code dateStr phones.length phones 0 (Nat.le_refl _),
    slyChunks_labels code dateStr phones.length phones 0 (Nat.le_refl _),
    ?_, ?_, ?_⟩
  · intro k hk
    unfold groupLetter
    rw [if_pos hk]
  · intro k hk
    unfold groupLetter
    rw [if_neg (by omega)]
  · intro h
    have hne1 : phones ≠ [] := by
      intro h0
      rw [h0] at h
      simp at h
    have hd1 : (phones.drop 250).length = 350 := by
      rw [List.length_drop, h]
    have hne2 : phones.drop 250 ≠ [] := by
      intro h0
      rw [h0] at hd1
      simp at hd1
    have hd2 : ((phones.drop 250).drop 250).length = 100 := by
      rw [List.length_drop, hd1]
    have hne3 : (phones.drop 250).drop 250 ≠ [] := by
      intro h0
      rw [h0] at hd2
      simp at hd2
    have hd3 : ((phones.drop 250).drop 250).drop 250 = [] := by
      apply List.length_eq_zero.mp
      rw [List.length_drop, hd2]
    unfold create_slybroadcast_files
    rw [slyChunks_ne code dateStr phones 0 hne1,
      slyChunks_ne code dateStr (phones.drop 250) 1 hne2,
      slyChunks_ne code dateStr ((phones.drop 250).drop 250) 2 hne3,
      hd3]
    have hemp : slyChunks code dateStr [] 3 = [] := by rw [slyChunks]
    rw [hemp]
    have hg0 : groupLetter 0 = "A" := by decide
    have hg1 : groupLetter 1 = "B" := by decide
    have hg2 : groupLetter 2 = "C" := by decide
    have ht1 : (phones.take 250).length = 250 := by
      rw [List.length_take, h]
      omega
    have ht2 : ((phones.drop 250).take 250).length = 250 := by
      rw [List.length_take, hd1]
      omega
    have ht3 : (((phones.drop 250).drop 250).take 250).length = 100 := by
      rw [List.length_take, hd2]
      omega
    simp only [List.map_cons, List.map_nil]
    rw [hg0, hg1, hg2, ht1, ht2, ht3]

/-- C5 witness: 600 concrete numbers produce exactly batches A, B, C of
sizes 250, 250, 100. -/
theorem output_batcher_witness :
    (create_slybroadcast_files (List.replicate 600 "5551234567") "Ref" "20250101").map
      (fun pr => (pr.1, pr.2.length)) =
      [(generate_slybroadcast_filename "Ref" "A" "20250101", 250),
       (generate_slybroadcast_filename "Ref" "B" "20250101", 250),
       (generate_slybroadcast_filename "Ref" "C" "20250101", 100)] :=
  (output_batcher (List.replicate 600 "5551234567") "Ref" "20250101").2.2.2.2.2
    (by rw [List.length_replicate])

/-- No digit character is in the forbidden filename class. -/
lemma digit_not_forbidden {c : Char} (h : isDigitChar c = true) :
    isForbiddenChar c = false := by
  have hmem : ¬ (c ∈ ['<', '>', ':', '"', '/', '\\', '|', '?', '*']) := by
    intro hm
    unfold isDigitChar at h
    rw [decide_eq_true_eq] at h
    simp only [List.mem_cons, List.not_mem_nil, or_false] at hm
    rcases hm with rfl | rfl | rfl | rfl | rfl | rfl | rfl | rfl | rfl
    all_goals revert h
    all_goals decide
  unfold isForbiddenChar
  exact decide_eq_false hmem

/-- No uppercase letter is in the forbidden filename class. -/
lemma upper_not_forbidden {c : Char} (h : isUpperAscii c = true) :
    isForbiddenChar c = false := by
  have hmem : ¬ (c ∈ ['<', '>', ':', '"', '/', '\\', '|', '?', '*']) := by
    intro hm
    unfold isUpperAscii at h
    rw [decide_eq_true_eq] at h
    simp only [List.mem_cons, List.not_mem_nil, or_false] at hm
    rcases hm with rfl | rfl | rfl | rfl | rfl | rfl | rfl | rfl | rfl
    all_goals revert h
    all_goals decide
  unfold isForbiddenChar
  exact decide_eq_false hmem

/-- The cleaned reference code contains no forbidden character. -/
lemma cleanCode_no_forbidden (code : String) :
    ∀ c ∈ (cleanCode code).data, isForbiddenChar c = false := by
  intro c hc
  unfold cleanCode at hc
  rw [data_mk] at hc
  rcases List.mem_map.mp hc with ⟨c0, hc0, rfl⟩
  have h0 := (List.mem_filter.mp hc0).2
  by_cases h : c0 = ' '
  · rw [if_pos h]
    decide
  · rw [if_neg h]
    simpa using h0

/-- C8: both filename builders embed the run date at the front and the
cleaned reference code, whose forbidden characters < > : " / \ | ? * are
removed and whose spaces become underscores; for a digit-only date (and,
for the Slybroadcast variant, a letter group label) the produced filename
contains no forbidden character at all, and the reference code
"TX VanZandt/2025" appears in it as "TX_VanZandt2025". -/
theorem filename_builder (code dateStr : String)
    (hdate : ∀ c ∈ dateStr.data, isDigitChar c = true) :
    (∃ rest, generate_roor_ready_filename code dateStr = dateStr ++ rest) ∧
    (∀ c ∈ (generate_roor_ready_filename code dateStr).data,
      isForbiddenChar c = false) ∧
    (∀ g : String, (∀ c ∈ g.data, isUpperAscii c = true) →
      (∃ rest, generate_slybroadcast_filename code g dateStr = dateStr ++ rest) ∧
      (∀ c ∈ (generate_slybroadcast_filename code g dateStr).data,
        isForbiddenChar c = false)) ∧
    cleanCode "TX VanZandt/2025" = "TX_VanZandt2025" ∧
    (generate_roor_ready_filename "TX VanZandt/2025" dateStr =
      dateStr ++ "_" ++ "TX_VanZandt2025" ++ "_Roor-Ready.csv") := by
  have hfixed1 : ∀ c ∈ "_".data, isForbiddenChar c = false := by decide
  have hfixed2 : ∀ c ∈ "_Roor-Ready.csv".data, isForbiddenChar c = false := by
    decide
  have hfixed3 : ∀ c ∈ "_Slybroadcast-Ready_Group".data,
      isForbiddenChar c = false := by decide
  have hfixed4 : ∀ c ∈ ".csv".data, isForbiddenChar c = false := by decide
  have hdate' : ∀ c ∈ dateStr.data, isForbiddenChar c = false :=
    fun c hc => digit_not_forbidden (hdate c hc)
  refine ⟨?_, ?_, ?_, ?_, ?_⟩
  · exact ⟨"_" ++ cleanCode code ++ "_Roor-Ready.csv", by
      unfold generate_roor_ready_filename
      simp [String.append_assoc]⟩
  · intro c hc
    unfold generate_roor_ready_filename at hc
    simp only [String.data_append, List.mem_append] at hc
    rcases hc with ((h1 | h2) | h3) | h4
    · exact hdate' c h1
    · exact hfixed1 c h2
    · exact cleanCode_no_forbidden code c h3
    · exact hfixed2 c h4
  · intro g hg
    refine ⟨⟨"_" ++ cleanCode code ++ "_Slybroadcast-Ready_Group" ++ g ++ ".csv", by
      unfold generate_slybroadcast_filename
      simp [String.append_assoc]⟩, ?_⟩
    intro c hc
    unfold generate_slybroadcast_filename at hc
    simp only [String.data_append, List.mem_append] at hc
    rcases hc with ((((h1 | h2) | h3) | h4) | h5) | h6
    · exact hdate' c h1
    · exact hfixed1 c h2
    · exact cleanCode_no_forbidden code c h3
    · exact hfixed3 c h4
    · exact upper_not_forbidden (hg c h5)
    · exact hfixed4 c h6
  · decide
  · unfold generate_roor_ready_filename
    have : cleanCode "TX VanZandt/2025" = "TX_VanZandt2025" := by decide
    rw [this]

/-- C8 witness: on the date 20251012 and the reference code
"TX VanZandt/2025" the Roor filename is exactly the one the claim
requires, containing "TX_VanZandt2025" and no forbidden character. -/
theorem filename_builder_witness :
    (∀ c ∈ (generate_roor_ready_filename "TX VanZandt/2025" "20251012").data,
      isForbiddenChar c = false) ∧
    generate_roor_ready_filename "TX VanZandt/2025" "20251012" =
      "20251012" ++ "_" ++ "TX_VanZandt2025" ++ "_Roor-Ready.csv" :=
  ⟨(filename_builder "TX VanZandt/2025" "20251012" (by decide)).2.1,
   (filename_builder "TX VanZandt/2025" "20251012" (by decide)).2.2.2.2⟩

/-- One phone slot of one row contributes one occurrence of p exactly
when the slot passes the presence test, is of mobile type, and
normalizes to p. -/
def slotHit (ph pt : CellVal) (p : String) : Bool :=
  slotOk ph && mobileOk pt && (clean_phone_number ph == p)

/-- Counting a value over a flattened image is the sum of the per-element
counts. -/
lemma count_flatMap_sum {α : Type} (f : α → List String) (p : String) :
    ∀ l : List α, ((l.flatMap f).count p) = (l.map (fun a => (f a).count p)).sum := by
  intro l
  induction l with
  | nil => rfl
  | cons x xs ih =>
    rw [List.flatMap_cons, List.count_append, ih, List.map_cons, List.sum_cons]

/-- The number of occurrences of a nonempty p among the phones emitted
for one slot. -/
lemma emitSlot_count (fn ln ph pt : CellVal) (p : String) (hp : p ≠ "") :
    ((emitSlot fn ln ph pt).map (fun rec => rec.phone)).count p =
      if slotHit ph pt p = true then 1 else 0 := by
  unfold emitSlot slotHit
  by_cases hc : (slotOk ph && mobileOk pt && !(clean_phone_number ph == "")) = true
  · rw [if_pos hc]
    obtain ⟨⟨h1, h2⟩, h3⟩ :
        (slotOk ph = true ∧ mobileOk pt = true) ∧ (clean_phone_number ph == "") = false := by
      have hx := hc
      simp only [Bool.and_eq_true, Bool.not_eq_true'] at hx
      exact hx
    simp [List.count_singleton, h1, h2]
  · rw [if_neg hc]
    have hfalse : (slotOk ph && mobileOk pt && (clean_phone_number ph == p)) = false := by
      cases hval : (slotOk ph && mobileOk pt && (clean_phone_number ph == p))
      · rfl
      · exfalso
        apply hc
        simp only [Bool.and_eq_true] at hval
        obtain ⟨h12, h3⟩ := hval
        have hcp : clean_phone_number ph = p := by simpa using h3
        simp [h12.1, h12.2, hcp, hp]
    rw [hfalse]
    simp

/-- Occurrences of a nonempty p among the phones emitted for one row. -/
lemma rowClean_count (r : Row) (p : String) (hp : p ≠ "") :
    ((rowClean r).map (fun rec => rec.phone)).count p =
      (if slotHit r.phone1 r.phone1Type p = true then 1 else 0) +
      (if slotHit r.phone2 r.phone2Type p = true then 1 else 0) := by
  unfold rowClean
  rw [List.map_append, List.count_append,
    emitSlot_count r.firstName r.lastName r.phone1 r.phone1Type p hp,
    emitSlot_count r.firstName r.lastName r.phone2 r.phone2Type p hp]

/-- C9: the pipeline never deduplicates phone numbers.  For every
nonempty normalized value p, the number of output rows carrying p equals
the number of (row, slot) occurrences that pass the DNC filter, the
slot-presence test, the mobile filter, and normalize to p — the same
value in both Phone1 and Phone2, or in several records, is kept with its
full multiplicity.  Batching also preserves multiplicity: for any p that
is not one of the two prepended test numbers, the batched export of the
test-extended list contains p exactly as often as the pipeline output
did. -/
theorem no_deduplication (t : Table) (p : String)
    (h : missingColumns t.cols = []) (hp : p ≠ "") :
    (((process_phone_data t).map (fun rec => rec.phone)).count p =
      ((t.rows.filter (fun r => !(containsDNC r.dnc))).map (fun r =>
        (if slotHit r.phone1 r.phone1Type p = true then 1 else 0) +
        (if slotHit r.phone2 r.phone2Type p = true then 1 else 0))).sum) ∧
    (∀ (phones : List String) (code dateStr : String), p ∉ testNumbers →
      (((create_slybroadcast_files (add_test_numbers_to_slybroadcast phones)
          code dateStr).map (fun pr => pr.2)).flatten).count p =
        phones.count p) := by
  constructor
  · rw [process_phone_data_eq t h, List.map_flatMap, count_flatMap_sum]
    congr 1
    exact List.map_congr_left (fun r _ => rowClean_count r p hp)
  · intro phones code dateStr hmem
    unfold create_slybroadcast_files
    rw [slyChunks_flatten code dateStr
      (add_test_numbers_to_slybroadcast phones).length
      (add_test_numbers_to_slybroadcast phones) 0 (Nat.le_refl _)]
    unfold add_test_numbers_to_slybroadcast
    rw [List.count_append, List.count_eq_zero.mpr hmem]
    omega

/-- C9 witness: the same number in both phone slots of one record
appears twice in the output, and batching the test-extended output keeps
that count. -/
theorem no_deduplication_witness :
    (((process_phone_data
        { cols := requiredColumnsFull,
          rows := [{ dnc := .missing, firstName := .str "a",
                     lastName := .str "b",
                     phone1 := .str "5550001111", phone1Type := .str "Mobile",
                     phone2 := .str "5550001111", phone2Type := .str "mobile" }] }).map
      (fun rec => rec.phone)).count "5550001111" =
      ((([{ dnc := .missing, firstName := .str "a", lastName := .str "b",
            phone1 := .str "5550001111", phone1Type := .str "Mobile",
            phone2 := .str "5550001111",
            phone2Type := .str "mobile" }] : List Row).filter
        (fun r => !(containsDNC r.dnc))).map (fun r =>
          (if slotHit r.phone1 r.phone1Type "5550001111" = true then 1 else 0) +
          (if slotHit r.phone2 r.phone2Type "5550001111" = true then 1 else 0))).sum) ∧
    (((create_slybroadcast_files
        (add_test_numbers_to_slybroadcast ["5550001111", "5550001111"])
        "Ref" "20250101").map (fun pr => pr.2)).flatten).count "5550001111" =
      (["5550001111", "5550001111"] : List String).count "5550001111" :=
  ⟨(no_deduplication
      { cols := requiredColumnsFull,
        rows := [{ dnc := .missing, firstName := .str "a", lastName := .str "b",
                   phone1 := .str "5550001111", phone1Type := .str "Mobile",
                   phone2 := .str "5550001111", phone2Type := .str "mobile" }] }
      "5550001111" (by decide) (by decide)).1,
   (no_deduplication
      { cols := requiredColumnsFull,
        rows := [{ dnc := .missing, firstName := .str "a", lastName := .str "b",
                   phone1 := .str "5550001111", phone1Type := .str "Mobile",
                   phone2 := .str "5550001111", phone2Type := .str "mobile" }] }
      "5550001111" (by decide) (by decide)).2
      ["5550001111", "5550001111"] "Ref" "20250101" (by decide)⟩
